import Mathlib

/-!
Verification of the tracing-perfetto core: a shallow embedding of the
protobuf emitter (src/emit.rs), the interning table (src/intern.rs), the
per-thread message capture (src/message.rs) and the writer loop
(src/writer.rs), together with theorems about the claims of the
specification.

Machine integers are modelled by Nat; truncating casts and wrapping
arithmetic that can actually occur in range are made explicit with % 2^32
or % 2^64.  Counters that increment at most once per stored map entry
(the intern table's next_iid, the thread-id allocator) are modelled as
unbounded Nat, since a u64 wrap would require more distinct entries than
can exist in memory.
-/

namespace TracingPerfetto

/-! ## Proto emitter (src/emit.rs)

The emitter's data vector is a list of bytes (Nat, each < 256 by
construction).  `varint_bytes` mirrors the loop body of
`ProtoEmitter::push_varint`: byte = val & 0x7f, val >>= 7, the high bit is
set on every byte except the last. -/

def varint_bytes (v : Nat) : List Nat :=
  if v < 128 then [v]
  else (v % 128 + 128) :: varint_bytes (v / 128)
termination_by v
decreasing_by exact Nat.div_lt_self (by omega) (by omega)

/-- `push_varint` appends the varint encoding of `v` to the data vector. -/
def push_varint (data : List Nat) (v : Nat) : List Nat :=
  data ++ varint_bytes v

/-- Standard base-128 varint decoder: little-endian 7-bit groups, the high
bit marks a continuation byte.  Returns the decoded value and the rest of
the input. -/
def decode_varint : List Nat → Option (Nat × List Nat)
  | [] => none
  | b :: rest =>
    if b < 128 then some (b, rest)
    else
      match decode_varint rest with
      | some (v, r) => some ((b - 128) + 128 * v, r)
      | none => none

/-- `ProtoEmitterError` from src/emit.rs. -/
inductive ProtoEmitterError where
  | nestedMessageTooLarge (actual_size : Nat) (max_size : Nat)
deriving DecidableEq

/-- `ProtoEmitter::write_size3`: patch three bytes at `offset` with a
non-minimal 3-byte varint of `size`; fails when `size ≥ 2^21`. -/
def write_size3 (data : List Nat) (offset : Nat) (size : Nat) :
    Except ProtoEmitterError (List Nat) :=
  if size ≥ 2 ^ 21 then
    .error (.nestedMessageTooLarge size (2 ^ 21 - 1))
  else
    .ok ((((data.set offset (size % 128 + 128)).set (offset + 1)
      (size / 128 % 128 + 128)).set (offset + 2) (size / 128 / 128 % 128)))

/-- `ProtoEmitter::write_size2`: same with two bytes and bound `2^14`. -/
def write_size2 (data : List Nat) (offset : Nat) (size : Nat) :
    Except ProtoEmitterError (List Nat) :=
  if size ≥ 2 ^ 14 then
    .error (.nestedMessageTooLarge size (2 ^ 14 - 1))
  else
    .ok ((data.set offset (size % 128 + 128)).set (offset + 1)
      (size / 128 % 128))

/-- Wire tag for a length-delimited field: `(field_id << 3) | 2` with the
u32 shift made explicit (`field_id * 8` has low bit pattern xxx000, so the
`| 2` is `+ 2`). -/
def length_delimited_tag (field_id : Nat) : Nat := field_id * 8 % 2 ^ 32 + 2

/-- `ProtoEmitter::nested`: push the tag, reserve three zero bytes, run
`build` (which appends the submessage and may fail), then backpatch the
three bytes with the body size.  The size is a `usize` cast to u32 at the
call — `self.write_size3(ofs - 3, size as u32)` — so the size check sees
`size mod 2^32`.  On any failure the data vector keeps whatever was
appended; the reserved bytes stay zero.  The pair returned is (final data
vector, error if any) — in Rust the data vector lives in `self` and
survives the early `?` return. -/
def nested (field_id : Nat)
    (build : List Nat → List Nat × Option ProtoEmitterError)
    (data : List Nat) : List Nat × Option ProtoEmitterError :=
  let data1 := push_varint data (length_delimited_tag field_id)
  let data2 := data1 ++ [0, 0, 0]
  let ofs := data2.length
  let built := build data2
  match built.2 with
  | some e => (built.1, some e)
  | none =>
    let size := built.1.length - ofs
    match write_size3 built.1 (ofs - 3) (size % 2 ^ 32) with
    | .ok d => (d, none)
    | .error e => (built.1, some e)

/-- `ProtoEmitter::nested_small`: two reserved bytes, bound `2^14`, with
the same `size as u32` cast at the `write_size2` call. -/
def nested_small (field_id : Nat)
    (build : List Nat → List Nat × Option ProtoEmitterError)
    (data : List Nat) : List Nat × Option ProtoEmitterError :=
  let data1 := push_varint data (length_delimited_tag field_id)
  let data2 := data1 ++ [0, 0]
  let ofs := data2.length
  let built := build data2
  match built.2 with
  | some e => (built.1, some e)
  | none =>
    let size := built.1.length - ofs
    match write_size2 built.1 (ofs - 2) (size % 2 ^ 32) with
    | .ok d => (d, none)
    | .error e => (built.1, some e)

/-- A build closure that appends a fixed body and succeeds, the shape every
`Emit` implementation has when no inner size check fires. -/
def append_body (body : List Nat) : List Nat → List Nat × Option ProtoEmitterError :=
  fun d => (d ++ body, none)

/-! ### Emitter lemmas -/

theorem varint_bytes_small (v : Nat) (h : v < 128) : varint_bytes v = [v] := by
  unfold varint_bytes
  simp [h]

theorem varint_bytes_large (v : Nat) (h : ¬v < 128) :
    varint_bytes v = (v % 128 + 128) :: varint_bytes (v / 128) := by
  conv_lhs => unfold varint_bytes
  simp [h]

theorem decode_varint_bytes (v : Nat) :
    ∀ rest : List Nat, decode_varint (varint_bytes v ++ rest) = some (v, rest) := by
  induction v using Nat.strong_induction_on with
  | _ v ih =>
    intro rest
    by_cases h : v < 128
    · rw [varint_bytes_small v h]
      simp [decode_varint, h]
    · rw [varint_bytes_large v h]
      have hlt : v / 128 < v := Nat.div_lt_self (by omega) (by omega)
      have hdec := ih (v / 128) hlt rest
      have hge : ¬(v % 128 + 128 < 128) := by omega
      simp only [List.cons_append, decode_varint, if_neg hge, List.append_eq, hdec]
      have hv : v % 128 + 128 - 128 + 128 * (v / 128) = v := by omega
      rw [hv]

/-- Patching the three reserved bytes that sit right behind a prefix. -/
theorem set3_at_append (l1 : List Nat) (a b c : Nat) (l2 : List Nat) (x y z : Nat) :
    (((l1 ++ a :: b :: c :: l2).set l1.length x).set (l1.length + 1) y).set
      (l1.length + 2) z = l1 ++ x :: y :: z :: l2 := by
  induction l1 with
  | nil => rfl
  | cons h t iht =>
    show h :: ((((t ++ a :: b :: c :: l2).set t.length x).set (t.length + 1) y).set
      (t.length + 2) z) = h :: (t ++ x :: y :: z :: l2)
    rw [iht]

/-- Patching the two reserved bytes that sit right behind a prefix. -/
theorem set2_at_append (l1 : List Nat) (a b : Nat) (l2 : List Nat) (x y : Nat) :
    ((l1 ++ a :: b :: l2).set l1.length x).set (l1.length + 1) y =
      l1 ++ x :: y :: l2 := by
  induction l1 with
  | nil => rfl
  | cons h t iht =>
    show h :: (((t ++ a :: b :: l2).set t.length x).set (t.length + 1) y) =
      h :: (t ++ x :: y :: l2)
    rw [iht]

/-- `nested` on an always-succeeding body: the size passed to
`write_size3` is the body length truncated to u32; success patches the
three bytes with that truncated size, failure leaves the zeros and the
body in place. -/
theorem nested_append_body (field_id : Nat) (body data : List Nat) :
    nested field_id (append_body body) data =
      if body.length % 2 ^ 32 < 2 ^ 21 then
        (push_varint data (length_delimited_tag field_id) ++
          (body.length % 2 ^ 32 % 128 + 128) ::
          (body.length % 2 ^ 32 / 128 % 128 + 128) ::
          (body.length % 2 ^ 32 / 128 / 128 % 128) :: body, none)
      else
        (push_varint data (length_delimited_tag field_id) ++
          0 :: 0 :: 0 :: body,
          some (.nestedMessageTooLarge (body.length % 2 ^ 32) (2 ^ 21 - 1))) := by
  have happ : (push_varint data (length_delimited_tag field_id) ++ [0, 0, 0]) ++ body =
      push_varint data (length_delimited_tag field_id) ++ 0 :: 0 :: 0 :: body := by
    simp
  have hlen : ((push_varint data (length_delimited_tag field_id) ++ [0, 0, 0]) ++ body).length -
      (push_varint data (length_delimited_tag field_id) ++ [0, 0, 0]).length = body.length := by
    simp only [List.length_append, List.length_cons, List.length_nil]
    omega
  have hofs : (push_varint data (length_delimited_tag field_id) ++ [0, 0, 0]).length - 3 =
      (push_varint data (length_delimited_tag field_id)).length := by
    simp only [List.length_append, List.length_cons, List.length_nil]
    omega
  unfold nested append_body write_size3
  simp only []
  rw [hlen, hofs]
  by_cases h : body.length % 2 ^ 32 < 2 ^ 21
  · rw [if_pos h, if_neg (by omega)]
    simp only [happ, set3_at_append]
  · rw [if_neg h, if_pos (by omega)]
    simp only [happ]

/-- `nested_small` on an always-succeeding body, with the same u32
truncation of the size. -/
theorem nested_small_append_body (field_id : Nat) (body data : List Nat) :
    nested_small field_id (append_body body) data =
      if body.length % 2 ^ 32 < 2 ^ 14 then
        (push_varint data (length_delimited_tag field_id) ++
          (body.length % 2 ^ 32 % 128 + 128) ::
          (body.length % 2 ^ 32 / 128 % 128) :: body, none)
      else
        (push_varint data (length_delimited_tag field_id) ++
          0 :: 0 :: body,
          some (.nestedMessageTooLarge (body.length % 2 ^ 32) (2 ^ 14 - 1))) := by
  have happ : (push_varint data (length_delimited_tag field_id) ++ [0, 0]) ++ body =
      push_varint data (length_delimited_tag field_id) ++ 0 :: 0 :: body := by
    simp
  have hlen : ((push_varint data (length_delimited_tag field_id) ++ [0, 0]) ++ body).length -
      (push_varint data (length_delimited_tag field_id) ++ [0, 0]).length = body.length := by
    simp only [List.length_append, List.length_cons, List.length_nil]
    omega
  have hofs : (push_varint data (length_delimited_tag field_id) ++ [0, 0]).length - 2 =
      (push_varint data (length_delimited_tag field_id)).length := by
    simp only [List.length_append, List.length_cons, List.length_nil]
    omega
  unfold nested_small append_body write_size2
  simp only []
  rw [hlen, hofs]
  by_cases h : body.length % 2 ^ 32 < 2 ^ 14
  · rw [if_pos h, if_neg (by omega)]
    simp only [happ, set2_at_append]
  · rw [if_neg h, if_pos (by omega)]
    simp only [happ]

/-! ## Intern table (src/intern.rs)

`InternMap` is a `HashMap<String, u64>` plus a `next_iid` counter; the map
is modelled as an association list (the code only ever inserts a key that
is absent, so keys are unique). -/

structure InternMap where
  names : List (String × Nat)
  next_iid : Nat
deriving DecidableEq

def InternMap.new : InternMap := { names := [], next_iid := 1 }

/-- `HashMap::get` on the modelled map. -/
def InternMap.lookup (m : InternMap) (name : String) : Option Nat :=
  (m.names.find? (fun p => p.1 == name)).map (fun p => p.2)

/-- `InternMap::get_iid`: return the existing id, or insert the name under
`next_iid` and bump the counter.  The flag is the `is_new` result. -/
def InternMap.get_iid (m : InternMap) (name : String) : (Nat × Bool) × InternMap :=
  match m.lookup name with
  | some iid => ((iid, false), m)
  | none =>
    ((m.next_iid, true),
      { names := (name, m.next_iid) :: m.names, next_iid := m.next_iid + 1 })

/-- `InternMap::reset`: clear the map and restart the counter at 1. -/
def InternMap.reset (_m : InternMap) : InternMap := { names := [], next_iid := 1 }

structure Interned where
  event_names : InternMap
  debug_annotation_names : InternMap
deriving DecidableEq

def Interned.new : Interned :=
  { event_names := InternMap.new, debug_annotation_names := InternMap.new }

def Interned.event_name (i : Interned) (name : String) : (Nat × Bool) × Interned :=
  let r := i.event_names.get_iid name
  (r.1, { i with event_names := r.2 })

def Interned.debug_annotation_name (i : Interned) (name : String) :
    (Nat × Bool) × Interned :=
  let r := i.debug_annotation_names.get_iid name
  (r.1, { i with debug_annotation_names := r.2 })

def Interned.reset (i : Interned) : Interned :=
  { event_names := i.event_names.reset,
    debug_annotation_names := i.debug_annotation_names.reset }

/-- Apply a sequence of further `get_iid` calls (any names) to a map. -/
def InternMap.intern_calls (m : InternMap) (calls : List String) : InternMap :=
  calls.foldl (fun m n => (m.get_iid n).2) m

/-- Invariant of the intern map: the counter started at 1 and every stored
id lies in `[1, next_iid)`. -/
def InternMap.Inv (m : InternMap) : Prop :=
  1 ≤ m.next_iid ∧ ∀ p ∈ m.names, 1 ≤ p.2 ∧ p.2 < m.next_iid

theorem InternMap.new_Inv : InternMap.Inv InternMap.new := by
  constructor
  · exact Nat.le_refl 1
  · intro p hp
    simp [InternMap.new] at hp

theorem InternMap.reset_Inv (m : InternMap) : InternMap.Inv m.reset := InternMap.new_Inv

theorem InternMap.lookup_mem (m : InternMap) (name : String) (iid : Nat)
    (h : m.lookup name = some iid) : (name, iid) ∈ m.names := by
  unfold InternMap.lookup at h
  cases hf : m.names.find? (fun p => p.1 == name) with
  | none => rw [hf] at h; simp at h
  | some p =>
    rw [hf] at h
    have hmem := List.mem_of_find?_eq_some hf
    have hpred := List.find?_some hf
    have hname : p.1 = name := by
      simpa using hpred
    have h2 : p.2 = iid := by
      simpa using h
    have hp : p = (name, iid) := by
      obtain ⟨a, b⟩ := p
      simp only at hname h2
      rw [hname, h2]
    rw [hp] at hmem
    exact hmem

theorem InternMap.get_iid_Inv (m : InternMap) (name : String) (h : m.Inv) :
    (m.get_iid name).2.Inv := by
  unfold InternMap.get_iid
  cases hl : m.lookup name with
  | some iid => exact h
  | none =>
    constructor
    · exact Nat.le_succ_of_le h.1
    · intro p hp
      simp only [List.mem_cons] at hp
      cases hp with
      | inl he => rw [he]; exact ⟨h.1, Nat.lt_succ_self _⟩
      | inr hm =>
        have := h.2 p hm
        exact ⟨this.1, Nat.lt_succ_of_lt this.2⟩

theorem InternMap.get_iid_pos (m : InternMap) (name : String) (h : m.Inv) :
    1 ≤ (m.get_iid name).1.1 := by
  unfold InternMap.get_iid
  cases hl : m.lookup name with
  | some iid => exact (h.2 _ (m.lookup_mem name iid hl)).1
  | none => exact h.1

/-- A binding already present survives any later `get_iid` call. -/
theorem InternMap.lookup_preserved (m : InternMap) (name other : String) (iid : Nat)
    (h : m.lookup name = some iid) : ((m.get_iid other).2).lookup name = some iid := by
  unfold InternMap.get_iid
  cases hl : m.lookup other with
  | some j => exact h
  | none =>
    have hne : (other == name) = false := by
      by_contra hc
      have : other = name := by
        have : (other == name) = true := by
          cases hob : (other == name) with
          | false => exact absurd hob hc
          | true => rfl
        exact eq_of_beq this
      rw [this] at hl
      rw [hl] at h
      exact Option.noConfusion h
    unfold InternMap.lookup at h ⊢
    have hstep : ((other, m.next_iid) :: m.names).find? (fun p => p.1 == name) =
        m.names.find? (fun p => p.1 == name) :=
      List.find?_cons_of_neg _ (by simpa using hne)
    rw [hstep]
    exact h

/-- A binding already present survives any sequence of later calls. -/
theorem InternMap.lookup_preserved_calls (calls : List String) :
    ∀ (m : InternMap) (name : String) (iid : Nat), m.lookup name = some iid →
      (m.intern_calls calls).lookup name = some iid := by
  induction calls with
  | nil => intro m name iid h; exact h
  | cons c cs ihc =>
    intro m name iid h
    exact ihc _ name iid (m.lookup_preserved name c iid h)

theorem InternMap.get_iid_of_lookup (m : InternMap) (name : String) (iid : Nat)
    (h : m.lookup name = some iid) : m.get_iid name = ((iid, false), m) := by
  unfold InternMap.get_iid
  rw [h]

theorem InternMap.get_iid_lookup_self (m : InternMap) (name : String) :
    ((m.get_iid name).2).lookup name = some (m.get_iid name).1.1 := by
  unfold InternMap.get_iid
  cases hl : m.lookup name with
  | some iid => exact hl
  | none =>
    unfold InternMap.lookup
    simp [List.find?]

theorem InternMap.get_iid_next_monotone (m : InternMap) (name : String) :
    m.next_iid ≤ (m.get_iid name).2.next_iid := by
  unfold InternMap.get_iid
  cases hl : m.lookup name with
  | some iid => exact Nat.le_refl _
  | none => exact Nat.le_succ _

/-! ## Message types (src/message.rs, src/annotations.rs)

`f64` payloads are carried as their bit pattern (a Nat); no claim depends
on floating-point arithmetic, the writer only copies the value through. -/

inductive SpanValue where
  | bool (b : Bool)
  | u64 (n : Nat)
  | i64 (i : Int)
  | str (s : String)
  | f64 (bits : Nat)
deriving DecidableEq

structure FieldValue where
  name : String
  value : SpanValue
deriving DecidableEq

inductive Message where
  | newThread (thread_id : Nat) (display_name : String)
  | enter (ts : Nat) (label : String) (args : Option (List FieldValue))
  | exit (ts : Nat) (label : String) (args : Option (List FieldValue))
  | event (ts : Nat) (label : String) (args : Option (List FieldValue))
deriving DecidableEq

/-! ## Packet model (src/packet.rs, as used by src/writer.rs) -/

def SEQ_INCREMENTAL_STATE_CLEARED : Nat := 1
def SEQ_NEEDS_INCREMENTAL_STATE : Nat := 2

inductive EventType where
  | instant
  | sliceBegin
  | sliceEnd
  | counter
deriving DecidableEq

inductive IString where
  | plain (s : String)
  | interned (iid : Nat)
deriving DecidableEq

inductive DebugValue where
  | bool (b : Bool)
  | uint (n : Nat)
  | int (i : Int)
  | double (bits : Nat)
  | string (s : String)
deriving DecidableEq

structure DebugAnnot where
  name : IString
  value : DebugValue
deriving DecidableEq

structure EventName where
  iid : Nat
  name : String
deriving DecidableEq

structure DebugAnnotName where
  iid : Nat
  name : String
deriving DecidableEq

structure InternedData where
  event_names : List EventName := []
  debug_annotation_names : List DebugAnnotName := []
deriving DecidableEq

def InternedData.is_empty (d : InternedData) : Bool :=
  d.event_names.isEmpty && d.debug_annotation_names.isEmpty

structure TrackEvent where
  event_type : EventType
  name : IString
  debug_annotations : List DebugAnnot
deriving DecidableEq

structure TrackDescriptor where
  uuid : Nat
  name : String
deriving DecidableEq

inductive PacketData where
  | trackEvent (ev : TrackEvent)
  | trackDescriptor (d : TrackDescriptor)
  | none
deriving DecidableEq

structure TrackEventDefaults where
  track_uuid : Nat
deriving DecidableEq

structure TracePacketDefaults where
  timestamp_clock_id : Nat
  track_event_defaults : Option TrackEventDefaults
deriving DecidableEq

structure TracePacket where
  timestamp : Nat
  data : PacketData
  sequence_flags : Nat
  trusted_uid : Int
  trusted_packet_sequence_id : Nat
  interned_data : Option InternedData
  trace_packet_defaults : Option TracePacketDefaults
deriving DecidableEq

/-! ## Writer loop (src/writer.rs)

The writer's byte output is a fixed function of the sequence of
`TracePacket` values it assembles (each packet is encoded by
`emitter.nested(1, ...)` and written), so the model works at the packet
level: `process_buffer` returns the packets in emission order, the final
intern state, and what is left of the queue. -/

/-- `let trusted_uid = 42` in `writer_thread`. -/
def writer_trusted_uid : Int := 42

/-- `1 + thread_id as u32`: the cast truncates to 32 bits, and the
increment itself wraps at 2^32. -/
def trusted_seq_id (thread_id : Nat) : Nat := (1 + thread_id % 2 ^ 32) % 2 ^ 32

/-- The sequence-start packet emitted by `start_sequence`. -/
def start_sequence_packet (thread_id : Nat) : TracePacket :=
  { timestamp := 1
    data := .none
    sequence_flags := SEQ_INCREMENTAL_STATE_CLEARED
    trusted_uid := writer_trusted_uid
    trusted_packet_sequence_id := trusted_seq_id thread_id
    interned_data := Option.none
    trace_packet_defaults := some
      { timestamp_clock_id := 6
        track_event_defaults := some
          { track_uuid := 8765 * (thread_id + 1) % 2 ^ 64 } } }

/-- The packet built by `new_thread` (note: the writer uses the buffer's
`thread_id`, not the one stored in the message). -/
def new_thread_packet (tpsid thread_id : Nat) (thread_name : String) : TracePacket :=
  { timestamp := 1
    data := .trackDescriptor
      { uuid := 8765 * (thread_id + 1) % 2 ^ 64, name := thread_name }
    sequence_flags := SEQ_NEEDS_INCREMENTAL_STATE
    trusted_uid := writer_trusted_uid
    trusted_packet_sequence_id := tpsid
    interned_data := Option.none
    trace_packet_defaults := Option.none }

/-- `intern_event_name` in src/writer.rs. -/
def intern_event_name (interned : Interned) (label : String) :
    (Nat × Option InternedData) × Interned :=
  let r := interned.event_name label
  let name_iid := r.1.1
  let is_new := r.1.2
  let interned_data : Option InternedData :=
    if is_new then
      some { event_names := [{ iid := name_iid, name := label }],
             debug_annotation_names := [] }
    else
      Option.none
  ((name_iid, interned_data), r.2)

def debug_value_of (v : SpanValue) : DebugValue :=
  match v with
  | .bool b => .bool b
  | .u64 n => .uint n
  | .i64 i => .int i
  | .str s => .string s
  | .f64 bits => .double bits

/-- One iteration of the `for arg in &*args` loop in
`build_debug_annotations`. -/
def debug_annot_step (acc : List DebugAnnot × InternedData × Interned)
    (arg : FieldValue) : List DebugAnnot × InternedData × Interned :=
  let r := acc.2.2.debug_annotation_name arg.name
  let name_iid := r.1.1
  let is_new := r.1.2
  let lid :=
    if is_new then
      { acc.2.1 with debug_annotation_names :=
          acc.2.1.debug_annotation_names ++ [{ iid := name_iid, name := arg.name }] }
    else
      acc.2.1
  (acc.1 ++ [{ name := .interned name_iid, value := debug_value_of arg.value }],
    lid, r.2)

/-- `build_debug_annotations` in src/writer.rs. -/
def build_debug_annotations (interned : Interned) (args : Option (List FieldValue))
    (interned_data : Option InternedData) :
    (List DebugAnnot × Option InternedData) × Interned :=
  match args with
  | Option.none => (([], interned_data), interned)
  | some args =>
    let init : List DebugAnnot × InternedData × Interned :=
      ([], interned_data.getD {}, interned)
    let r := args.foldl debug_annot_step init
    ((r.1, if r.2.1.is_empty then Option.none else some r.2.1), r.2.2)

/-- The packet built by `enter` in src/writer.rs. -/
def enter_packet (interned : Interned) (tpsid ts : Nat) (label : String)
    (args : Option (List FieldValue)) : TracePacket × Interned :=
  let r1 := intern_event_name interned label
  let r2 := build_debug_annotations r1.2 args r1.1.2
  ({ timestamp := ts
     sequence_flags := SEQ_NEEDS_INCREMENTAL_STATE
     data := .trackEvent
       { event_type := .sliceBegin, name := .interned r1.1.1,
         debug_annotations := r2.1.1 }
     trusted_uid := writer_trusted_uid
     trusted_packet_sequence_id := tpsid
     interned_data := r2.1.2
     trace_packet_defaults := Option.none }, r2.2)

/-- The packet built by `exit` in src/writer.rs (args are dropped). -/
def exit_packet (interned : Interned) (tpsid ts : Nat) (label : String) :
    TracePacket × Interned :=
  let r1 := intern_event_name interned label
  ({ timestamp := ts
     sequence_flags := SEQ_NEEDS_INCREMENTAL_STATE
     data := .trackEvent
       { event_type := .sliceEnd, name := .interned r1.1.1,
         debug_annotations := [] }
     trusted_uid := writer_trusted_uid
     trusted_packet_sequence_id := tpsid
     interned_data := r1.1.2
     trace_packet_defaults := Option.none }, r1.2)

/-- The packet built by `event` in src/writer.rs. -/
def event_packet (interned : Interned) (tpsid ts : Nat) (label : String)
    (args : Option (List FieldValue)) : TracePacket × Interned :=
  let r1 := intern_event_name interned label
  let r2 := build_debug_annotations r1.2 args r1.1.2
  ({ timestamp := ts
     sequence_flags := SEQ_NEEDS_INCREMENTAL_STATE
     data := .trackEvent
       { event_type := .instant, name := .interned r1.1.1,
         debug_annotations := r2.1.1 }
     trusted_uid := writer_trusted_uid
     trusted_packet_sequence_id := tpsid
     interned_data := r2.1.2
     trace_packet_defaults := Option.none }, r2.2)

/-- The `match msg` in the body of the `process_buffer` loop. -/
def handle_message (interned : Interned) (tpsid thread_id : Nat) :
    Message → TracePacket × Interned
  | .newThread _ name => (new_thread_packet tpsid thread_id name, interned)
  | .enter ts label args => enter_packet interned tpsid ts label args
  | .exit ts label _ => exit_packet interned tpsid ts label
  | .event ts label args => event_packet interned tpsid ts label args

/-- The drain loop of `process_buffer`:
`while let Some(msg) = buffer.queue.pop() { if items == 0 { break; } items -= 1; ... }`.
Note that the pop happens before the counter check, so when the counter
reaches zero one extra message (if present) is popped and then discarded
by the break.  Returns (packets emitted, final intern state, what is left
in the queue). -/
def process_buffer_loop (tpsid thread_id : Nat) :
    Interned → List Message → Nat → List TracePacket × Interned × List Message
  | interned, [], _ => ([], interned, [])
  | interned, msg :: rest, items =>
    if items = 0 then ([], interned, rest)
    else
      let r := handle_message interned tpsid thread_id msg
      let rr := process_buffer_loop tpsid thread_id r.2 rest (items - 1)
      (r.1 :: rr.1, rr.2.1, rr.2.2)

/-- `process_buffer` in src/writer.rs.  `q0` is the queue content at entry
(`items = buffer.queue.len()` is its length); `late` are messages a
producer pushes into the queue after that snapshot and before the drain
reaches them.  Returns (packets emitted in order, final intern state,
what is left in the queue). -/
def process_buffer (interned : Interned) (thread_id : Nat)
    (q0 late : List Message) : List TracePacket × Interned × List Message :=
  let items := q0.length
  if items = 0 then ([], interned, q0 ++ late)
  else
    let pkt0 := start_sequence_packet thread_id
    let tpsid := trusted_seq_id thread_id
    let interned1 := interned.reset
    let r := process_buffer_loop tpsid thread_id interned1 (q0 ++ late) items
    (pkt0 :: r.1, r.2.1, r.2.2)

/-! ## Capture subsystem (src/message.rs)

`Buffer` wraps a `crossbeam ArrayQueue` of fixed capacity; the queue is a
list (front first) plus the capacity.  `MessagingState` carries the
buffer size, the atomic thread-id counter, the `in_use_local_buffers`
map (modelled by the set of registered thread ids; its buffer contents
alias the thread-local buffer and are irrelevant to the claims here) and
the finished-buffer channel (the list of sent buffers). -/

structure Buffer where
  thread_id : Nat
  cap : Nat
  queue : List Message
deriving DecidableEq

/-- `ArrayQueue::push`: appends at the back, fails when full. -/
def Buffer.push (b : Buffer) (msg : Message) : Option Buffer :=
  if b.queue.length < b.cap then some { b with queue := b.queue ++ [msg] }
  else Option.none

structure MessagingState where
  buffer_size : Nat
  max_thread_id : Nat
  in_use_local_buffers : List Nat
  finished_buffers : List Buffer
deriving DecidableEq

/-- `MessagingState::alloc_empty_buffer`. -/
def MessagingState.alloc_empty_buffer (s : MessagingState) (thread_id : Nat) : Buffer :=
  { thread_id := thread_id, cap := s.buffer_size, queue := [] }

/-- The display name computed in `alloc_first_buffer`:
`"{name} {thread_id}"` when the OS thread has a name, else
`"thread {thread_id}"`. -/
def display_name_of (os_name : Option String) (thread_id : Nat) : String :=
  match os_name with
  | some n => n ++ " " ++ toString thread_id
  | Option.none => "thread " ++ toString thread_id

/-- `MessagingState::alloc_first_buffer`: fetch_add on the thread-id
counter (returns the old value), allocate an empty buffer, push the
synthetic `NewThread` message (`let _ =` ignores a push failure), register
the thread id in `in_use`. -/
def MessagingState.alloc_first_buffer (s : MessagingState) (os_name : Option String) :
    MessagingState × Buffer :=
  let thread_id := s.max_thread_id
  let s1 := { s with max_thread_id := s.max_thread_id + 1 }
  let buf := s1.alloc_empty_buffer thread_id
  let thread_name := display_name_of os_name thread_id
  let buf1 := (buf.push (.newThread thread_id thread_name)).getD buf
  let s2 := { s1 with in_use_local_buffers := thread_id :: s1.in_use_local_buffers }
  (s2, buf1)

/-- `MessagingState::handle_full_queue`: deregister the thread id, send
the full buffer on the channel, allocate a fresh buffer and register it. -/
def MessagingState.handle_full_queue (s : MessagingState) (buffer : Buffer) :
    MessagingState × Buffer :=
  let thread_id := buffer.thread_id
  let s1 := { s with in_use_local_buffers := s.in_use_local_buffers.erase thread_id }
  let s2 := { s1 with finished_buffers := s1.finished_buffers ++ [buffer] }
  let new_buf := s2.alloc_empty_buffer thread_id
  let s3 := { s2 with in_use_local_buffers := thread_id :: s2.in_use_local_buffers }
  (s3, new_buf)

/-- `MessagingState::send_message`.  `cell` is the thread-local
`AtomicCell<Option<Arc<Buffer>>>` contents; `os_name` the current OS
thread's name.  The two `panic!("Failed to push into fresh buffer")`
branches are modelled by `Except.error`. -/
def MessagingState.send_message (s : MessagingState) (cell : Option Buffer)
    (os_name : Option String) (message : Message) :
    Except String (MessagingState × Option Buffer) :=
  match cell with
  | some buffer =>
    match buffer.push message with
    | some b => .ok (s, some b)
    | Option.none =>
      let r := s.handle_full_queue buffer
      match r.2.push message with
      | some b => .ok (r.1, some b)
      | Option.none => .error fresh_push_panic
  | Option.none =>
    let r := s.alloc_first_buffer os_name
    match r.2.push message with
    | some b => .ok (r.1, some b)
    | Option.none => .error fresh_push_panic
where
  fresh_push_panic : String := "Failed to push into fresh buffer"

/-! ## Per-message writer byte output

`enter`/`exit`/`event`/`new_thread` in src/writer.rs all run
`emitter.clear(); emitter.nested(1, |out| msg.emit(out));
writer.write(emitter.as_bytes())?`.  The `Result` returned by `nested` is
discarded, and the emitter bytes are written to the file unconditionally;
the only `?` is on the I/O result of `write`.  `writer_emit_trace_packet`
returns the bytes that reach the file together with the discarded error. -/

def writer_emit_trace_packet
    (build : List Nat → List Nat × Option ProtoEmitterError) :
    List Nat × Option ProtoEmitterError :=
  nested 1 build []

/-- The file bytes produced by a sequence of per-message emissions: every
message's bytes are written, whether or not its `nested` call failed, and
the loop continues after a failure. -/
def writer_output
    (builds : List (List Nat → List Nat × Option ProtoEmitterError)) : List Nat :=
  (builds.map (fun b => (writer_emit_trace_packet b).1)).flatten

/-- A 2 MiB submessage body, the smallest size rejected by `nested`. -/
def oversize_body : List Nat := List.replicate (2 ^ 21) 37

theorem tag1_bytes : push_varint [] (length_delimited_tag 1) = [10] := by
  have h : length_delimited_tag 1 = 10 := by decide
  rw [push_varint, h, varint_bytes_small 10 (by omega)]
  rfl

/-! ## Claim theorems -/

/-- Claim C8 (counterexample to the claim as stated): the size is cast
to u32 before the check (`write_size3(ofs - 3, size as u32)`), so for a
body of exactly `2^32` bytes the truncated size is 0 and `nested`
succeeds instead of failing with `NestedMessageTooLarge` — patching the
zero length bytes `128, 128, 0` (the non-minimal 3-byte varint of 0) for
a 4 GiB body. -/
theorem nested_wrap_counterexample :
    (nested 1 (append_body (List.replicate (2 ^ 32) 0)) []).2 = Option.none
  ∧ (nested 1 (append_body (List.replicate (2 ^ 32) 0)) []).1 =
      10 :: 128 :: 128 :: 0 :: List.replicate (2 ^ 32) 0
  ∧ 2 ^ 21 ≤ (List.replicate (2 ^ 32) (0 : Nat)).length := by
  have hlen : (List.replicate (2 ^ 32) (0 : Nat)).length = 2 ^ 32 := by
    rw [List.length_replicate]
  generalize hb : List.replicate (2 ^ 32) (0 : Nat) = body
  rw [hb] at hlen
  have h := nested_append_body 1 body []
  rw [hlen, tag1_bytes] at h
  have hmod : (2 : Nat) ^ 32 % 2 ^ 32 = 0 := by norm_num
  rw [hmod, if_pos (by norm_num)] at h
  refine ⟨?_, ?_, ?_⟩
  · rw [h]
  · rw [h]
    norm_num
  · rw [hlen]
    norm_num

/-- Claim C8 (amended): for every build closure appending a body,
`nested(field_id, build)` succeeds exactly when the body size taken
mod `2^32` (the code casts the size to u32 before the check) is at most
`2^21 - 1` bytes, and fails with `NestedMessageTooLarge` — reporting the
truncated size — when that truncated size is `2^21` or larger;
`nested_small` behaves the same with bound `2^14 - 1`.  For bodies
shorter than `2^32` bytes this coincides with the original bounds. -/
theorem nested_size_limits (field_id : Nat) (body data : List Nat) :
    (nested field_id (append_body body) data).2 =
      (if body.length % 2 ^ 32 ≤ 2 ^ 21 - 1 then Option.none
       else some (ProtoEmitterError.nestedMessageTooLarge
         (body.length % 2 ^ 32) (2 ^ 21 - 1)))
  ∧ (nested_small field_id (append_body body) data).2 =
      (if body.length % 2 ^ 32 ≤ 2 ^ 14 - 1 then Option.none
       else some (ProtoEmitterError.nestedMessageTooLarge
         (body.length % 2 ^ 32) (2 ^ 14 - 1)))
  ∧ (body.length < 2 ^ 32 →
      ((nested field_id (append_body body) data).2 = Option.none ↔
        body.length ≤ 2 ^ 21 - 1)
      ∧ ((nested_small field_id (append_body body) data).2 = Option.none ↔
        body.length ≤ 2 ^ 14 - 1)) := by
  have e1 : (nested field_id (append_body body) data).2 =
      (if body.length % 2 ^ 32 ≤ 2 ^ 21 - 1 then Option.none
       else some (ProtoEmitterError.nestedMessageTooLarge
         (body.length % 2 ^ 32) (2 ^ 21 - 1))) := by
    rw [nested_append_body]
    by_cases h : body.length % 2 ^ 32 < 2 ^ 21
    · rw [if_pos h, if_pos (by omega)]
    · rw [if_neg h, if_neg (by omega)]
  have e2 : (nested_small field_id (append_body body) data).2 =
      (if body.length % 2 ^ 32 ≤ 2 ^ 14 - 1 then Option.none
       else some (ProtoEmitterError.nestedMessageTooLarge
         (body.length % 2 ^ 32) (2 ^ 14 - 1))) := by
    rw [nested_small_append_body]
    by_cases h : body.length % 2 ^ 32 < 2 ^ 14
    · rw [if_pos h, if_pos (by omega)]
    · rw [if_neg h, if_neg (by omega)]
  refine ⟨e1, e2, ?_⟩
  intro hlt
  have hm : body.length % 2 ^ 32 = body.length := Nat.mod_eq_of_lt hlt
  rw [e1, e2, hm]
  constructor
  · by_cases h : body.length ≤ 2 ^ 21 - 1
    · rw [if_pos h]
      exact iff_of_true rfl h
    · rw [if_neg h]
      exact iff_of_false (fun hc => Option.noConfusion hc) h
  · by_cases h : body.length ≤ 2 ^ 14 - 1
    · rw [if_pos h]
      exact iff_of_true rfl h
    · rw [if_neg h]
      exact iff_of_false (fun hc => Option.noConfusion hc) h

theorem nested_size_limits_witness :
    ([8, 1] : List Nat).length < 2 ^ 32
  ∧ ((nested 1 (append_body [8, 1]) []).2 = Option.none ↔
      ([8, 1] : List Nat).length ≤ 2 ^ 21 - 1)
  ∧ ((nested_small 1 (append_body [8, 1]) []).2 = Option.none ↔
      ([8, 1] : List Nat).length ≤ 2 ^ 14 - 1) :=
  ⟨by decide,
   ((nested_size_limits 1 [8, 1] []).2.2 (by decide)).1,
   ((nested_size_limits 1 [8, 1] []).2.2 (by decide)).2⟩

/-- Claim C9: decoding the varint byte sequence produced by the emitter's
`push_varint` yields the original value, for every u64 value. -/
theorem varint_roundtrip (v : Nat) (_h : v < 2 ^ 64) :
    decode_varint (push_varint [] v) = some (v, []) := by
  rw [push_varint, List.nil_append]
  have hd := decode_varint_bytes v []
  rwa [List.append_nil] at hd

theorem varint_roundtrip_witness :
    300 < 2 ^ 64 ∧ decode_varint (push_varint [] 300) = some (300, []) :=
  ⟨by decide, varint_roundtrip 300 (by decide)⟩

/-- Claim C2: when a packet's nested submessage exceeds the size limit the
writer does NOT skip the packet.  `nested` returns
`NestedMessageTooLarge`, but src/writer.rs discards that `Result` and
writes `emitter.as_bytes()` unconditionally, so the tag byte, the three
unpatched zero length bytes and the whole oversize body all reach the
output; the loop then continues and subsequent packets are emitted
normally after them. -/
theorem writer_oversize_packet_bytes_reach_output :
    (writer_emit_trace_packet (append_body oversize_body)).2 =
      some (ProtoEmitterError.nestedMessageTooLarge (2 ^ 21) (2 ^ 21 - 1))
  ∧ (writer_emit_trace_packet (append_body oversize_body)).1 =
      10 :: 0 :: 0 :: 0 :: oversize_body
  ∧ writer_output [append_body oversize_body, append_body [8, 1]] =
      (10 :: 0 :: 0 :: 0 :: oversize_body) ++ [10, 130, 128, 0, 8, 1] := by
  have hlen : oversize_body.length = 2 ^ 21 := by
    rw [oversize_body, List.length_replicate]
  have hbig : writer_emit_trace_packet (append_body oversize_body) =
      (10 :: 0 :: 0 :: 0 :: oversize_body,
        some (ProtoEmitterError.nestedMessageTooLarge (2 ^ 21) (2 ^ 21 - 1))) := by
    have h := nested_append_body 1 oversize_body []
    have hmod : (2 : Nat) ^ 21 % 2 ^ 32 = 2 ^ 21 := by norm_num
    rw [hlen, hmod, if_neg (by omega), tag1_bytes] at h
    rw [writer_emit_trace_packet, h]
    rfl
  have hsmall : writer_emit_trace_packet (append_body [8, 1]) =
      ([10, 130, 128, 0, 8, 1], Option.none) := by
    have h := nested_append_body 1 [8, 1] []
    rw [if_pos (by norm_num), tag1_bytes] at h
    rw [writer_emit_trace_packet, h]
    rfl
  refine ⟨?_, ?_, ?_⟩
  · rw [hbig]
  · rw [hbig]
  · rw [writer_output]
    simp only [List.map_cons, List.map_nil, hbig, hsmall]
    rw [List.flatten]
    rw [List.flatten]
    rw [List.flatten]
    rw [List.append_nil]

/-! ### Writer loop lemmas -/

theorem handle_message_fields (interned : Interned) (tpsid thread_id : Nat)
    (msg : Message) :
    (handle_message interned tpsid thread_id msg).1.sequence_flags =
        SEQ_NEEDS_INCREMENTAL_STATE ∧
      (handle_message interned tpsid thread_id msg).1.trusted_packet_sequence_id =
        tpsid := by
  cases msg <;> exact ⟨rfl, rfl⟩

theorem process_buffer_loop_fields (tpsid thread_id : Nat) (msgs : List Message) :
    ∀ (interned : Interned) (items : Nat),
      ∀ p ∈ (process_buffer_loop tpsid thread_id interned msgs items).1,
        p.sequence_flags = SEQ_NEEDS_INCREMENTAL_STATE ∧
          p.trusted_packet_sequence_id = tpsid := by
  induction msgs with
  | nil =>
    intro interned items p hp
    simp [process_buffer_loop] at hp
  | cons m rest ih =>
    intro interned items p hp
    unfold process_buffer_loop at hp
    by_cases h : items = 0
    · rw [if_pos h] at hp
      simp at hp
    · rw [if_neg h] at hp
      simp only [List.mem_cons] at hp
      cases hp with
      | inl he =>
        rw [he]
        exact handle_message_fields interned tpsid thread_id m
      | inr hm => exact ih _ _ p hm

/-- Claim C10: a buffer whose queue is empty at entry is returned from
unchanged: no packet (not even the sequence-start packet) is emitted, so
nothing is written, the intern dictionary is not reset, and the queue is
left alone. -/
theorem process_buffer_empty_queue (interned : Interned) (thread_id : Nat)
    (late : List Message) :
    process_buffer interned thread_id [] late = ([], interned, late) := by
  unfold process_buffer
  simp

/-- Claim C4: for every processed buffer with at least one message, the
first emitted packet has `sequence_flags = SEQ_INCREMENTAL_STATE_CLEARED`
(1) and every subsequent packet of that buffer has
`sequence_flags = SEQ_NEEDS_INCREMENTAL_STATE` (2). -/
theorem process_buffer_sequence_flags (interned : Interned) (thread_id : Nat)
    (q0 late : List Message) (h : q0 ≠ []) :
    ((process_buffer interned thread_id q0 late).1.head?.map
        (fun p => p.sequence_flags) = some SEQ_INCREMENTAL_STATE_CLEARED)
  ∧ ∀ p ∈ (process_buffer interned thread_id q0 late).1.tail,
      p.sequence_flags = SEQ_NEEDS_INCREMENTAL_STATE := by
  have hne : ¬(q0.length = 0) := by
    cases q0 with
    | nil => exact absurd rfl h
    | cons a t => simp
  unfold process_buffer
  rw [if_neg hne]
  constructor
  · rfl
  · intro p hp
    exact (process_buffer_loop_fields (trusted_seq_id thread_id) thread_id
      (q0 ++ late) interned.reset q0.length p hp).1

theorem process_buffer_sequence_flags_witness :
    ((process_buffer Interned.new 0 [Message.enter 10 ("a") Option.none] []).1.head?.map
        (fun p => p.sequence_flags) = some SEQ_INCREMENTAL_STATE_CLEARED)
  ∧ ∀ p ∈ (process_buffer Interned.new 0 [Message.enter 10 ("a") Option.none] []).1.tail,
      p.sequence_flags = SEQ_NEEDS_INCREMENTAL_STATE :=
  process_buffer_sequence_flags Interned.new 0 [Message.enter 10 ("a") Option.none] []
    (by simp)

theorem trusted_seq_id_eq (thread_id : Nat) :
    trusted_seq_id thread_id = (1 + thread_id) % 2 ^ 32 := by
  unfold trusted_seq_id
  have h32 : (2 : Nat) ^ 32 = 4294967296 := by norm_num
  rw [h32]
  omega

/-- Claim C3 (amended): every packet emitted for a buffer carries
`trusted_packet_sequence_id = (1 + thread_id) mod 2^32` (the code computes
`1 + thread_id as u32`); this equals `1 + thread_id` whenever
`thread_id + 1 < 2^32`, and distinct thread ids below `2^32` get distinct
sequence ids. -/
theorem process_buffer_packet_sequence_id (interned : Interned) (thread_id : Nat)
    (q0 late : List Message) :
    (∀ p ∈ (process_buffer interned thread_id q0 late).1,
        p.trusted_packet_sequence_id = (1 + thread_id) % 2 ^ 32)
  ∧ (thread_id + 1 < 2 ^ 32 → trusted_seq_id thread_id = 1 + thread_id)
  ∧ (∀ t1 t2 : Nat, t1 < 2 ^ 32 → t2 < 2 ^ 32 →
      trusted_seq_id t1 = trusted_seq_id t2 → t1 = t2) := by
  have h32 : (2 : Nat) ^ 32 = 4294967296 := by norm_num
  refine ⟨?_, ?_, ?_⟩
  · intro p hp
    rw [← trusted_seq_id_eq]
    unfold process_buffer at hp
    by_cases h : q0.length = 0
    · rw [if_pos h] at hp
      simp at hp
    · rw [if_neg h] at hp
      simp only [List.mem_cons] at hp
      cases hp with
      | inl he => rw [he]; rfl
      | inr hm =>
        exact (process_buffer_loop_fields (trusted_seq_id thread_id) thread_id
          (q0 ++ late) interned.reset q0.length p hm).2
  · intro hlt
    rw [trusted_seq_id_eq, h32] at *
    omega
  · intro t1 t2 h1 h2 heq
    rw [trusted_seq_id_eq, trusted_seq_id_eq, h32] at heq
    rw [h32] at h1 h2
    omega

theorem process_buffer_packet_sequence_id_witness :
    (start_sequence_packet 3).trusted_packet_sequence_id = (1 + 3) % 2 ^ 32
  ∧ trusted_seq_id 3 = 1 + 3
  ∧ (7 : Nat) = 7 :=
  ⟨(process_buffer_packet_sequence_id Interned.new 3
        [Message.enter 10 ("a") Option.none] []).1 (start_sequence_packet 3)
      (by rw [process_buffer]; exact List.mem_cons_self _ _),
   (process_buffer_packet_sequence_id Interned.new 3
        [Message.enter 10 ("a") Option.none] []).2.1 (by norm_num),
   (process_buffer_packet_sequence_id Interned.new 3
        [Message.enter 10 ("a") Option.none] []).2.2 7 7 (by norm_num) (by norm_num) rfl⟩

/-- Claim C3 (counterexample to the claim as stated): the cast
`thread_id as u32` truncates, so a buffer with thread id `2^32` gets
sequence id `1` — the same id as thread `0` and not `1 + 2^32`.  The
sequence id is neither `1 + thread_id` nor unique for all u64 thread
ids. -/
theorem seq_id_truncation_counterexample :
    ((process_buffer Interned.new (2 ^ 32) [Message.enter 10 ("a") Option.none] []).1.head?.map
        (fun p => p.trusted_packet_sequence_id) = some 1)
  ∧ ((process_buffer Interned.new 0 [Message.enter 10 ("a") Option.none] []).1.head?.map
        (fun p => p.trusted_packet_sequence_id) = some 1)
  ∧ (1 : Nat) ≠ 1 + 2 ^ 32
  ∧ ((2 : Nat) ^ 32) ≠ 0 := by
  refine ⟨?_, ?_, by norm_num, by norm_num⟩
  · rw [process_buffer]
    simp only [List.length_cons, List.length_nil]
    rw [if_neg (by omega)]
    have h1 : trusted_seq_id 4294967296 = 1 := by
      rw [trusted_seq_id_eq]
      norm_num
    simp [start_sequence_packet, h1]
  · rw [process_buffer]
    simp only [List.length_cons, List.length_nil]
    rw [if_neg (by omega)]
    have h1 : trusted_seq_id 0 = 1 := by
      rw [trusted_seq_id_eq]
      norm_num
    simp [start_sequence_packet, h1]

/-- Claim C1 (the code at the failing input): the drain loop of
`process_buffer` checks `items == 0` only after popping, so with one
message in the queue at entry (`items = 1`) and one message pushed after
the snapshot, both messages are popped: the late one (timestamp 11) is
neither emitted (the emitted timestamps are `[1, 10]`: the sequence-start
packet and the first message) nor left in the queue (the remainder is
empty).  It is lost, contradicting the claim that messages pushed after
the snapshot are never popped. -/
theorem process_buffer_pops_late_message :
    (process_buffer Interned.new 0 [Message.enter 10 ("a") Option.none]
        [Message.enter 11 ("b") Option.none]).2.2 = []
  ∧ ((process_buffer Interned.new 0 [Message.enter 10 ("a") Option.none]
        [Message.enter 11 ("b") Option.none]).1.map (fun p => p.timestamp)) = [1, 10] := by
  decide

/-- Claim C5: under the intern-map invariant (which holds for a fresh map
and is preserved by every call), `get_iid` returns an id that is at least
1 (so id 0 is never returned), with `is_new = true` exactly on the first
insertion of the name in the current generation; a fresh id equals the
current counter and bumps it, the counter never decreases, and after the
first insertion every later lookup of the name — through any sequence of
further calls — returns the same id with `is_new = false`.  `reset`
clears both maps of the `Interned` pair and restarts both counters at 1,
which is the state of a fresh map. -/
theorem intern_map_spec (m : InternMap) (i : Interned) (name : String) (h : m.Inv) :
    1 ≤ (m.get_iid name).1.1
  ∧ ((m.get_iid name).1.2 = true ↔ m.lookup name = Option.none)
  ∧ ((m.get_iid name).1.2 = true →
      (m.get_iid name).1.1 = m.next_iid ∧
        (m.get_iid name).2.next_iid = m.next_iid + 1)
  ∧ m.next_iid ≤ (m.get_iid name).2.next_iid
  ∧ (m.get_iid name).2.Inv
  ∧ (∀ calls : List String,
      (((m.get_iid name).2).intern_calls calls).get_iid name =
        (((m.get_iid name).1.1, false), ((m.get_iid name).2).intern_calls calls))
  ∧ InternMap.new.next_iid = 1 ∧ InternMap.new.names = []
  ∧ i.reset = { event_names := InternMap.new, debug_annotation_names := InternMap.new } := by
  refine ⟨m.get_iid_pos name h, ?_, ?_, m.get_iid_next_monotone name,
    m.get_iid_Inv name h, ?_, rfl, rfl, rfl⟩
  · unfold InternMap.get_iid
    cases hl : m.lookup name with
    | some iid => simp [hl]
    | none => simp [hl]
  · intro hnew
    unfold InternMap.get_iid at hnew ⊢
    cases hl : m.lookup name with
    | some iid => rw [hl] at hnew; simp at hnew
    | none => exact ⟨rfl, rfl⟩
  · intro calls
    have hself := m.get_iid_lookup_self name
    have hpres := InternMap.lookup_preserved_calls calls ((m.get_iid name).2) name
      (m.get_iid name).1.1 hself
    exact InternMap.get_iid_of_lookup _ name (m.get_iid name).1.1 hpres

theorem intern_map_spec_witness :
    1 ≤ (InternMap.new.get_iid ("fib")).1.1
  ∧ ((InternMap.new.get_iid ("fib")).1.2 = true ↔
      InternMap.new.lookup ("fib") = Option.none) :=
  ⟨(intern_map_spec InternMap.new Interned.new ("fib") InternMap.new_Inv).1,
   (intern_map_spec InternMap.new Interned.new ("fib") InternMap.new_Inv).2.1⟩

/-- The first-send path of `send_message`, fully evaluated. -/
theorem send_message_first_eq (s : MessagingState) (os_name : Option String)
    (msg : Message) (h : 2 ≤ s.buffer_size) :
    s.send_message Option.none os_name msg =
      .ok ({ s with
              max_thread_id := s.max_thread_id + 1,
              in_use_local_buffers := s.max_thread_id :: s.in_use_local_buffers },
           some { thread_id := s.max_thread_id, cap := s.buffer_size,
                  queue := [Message.newThread s.max_thread_id
                              (display_name_of os_name s.max_thread_id), msg] }) := by
  have hpos : 0 < s.buffer_size := by omega
  have h1p : 1 < s.buffer_size := by omega
  unfold MessagingState.send_message MessagingState.alloc_first_buffer
    MessagingState.alloc_empty_buffer Buffer.push
  simp [hpos, h1p]

/-- The rotation path of `send_message` on a full buffer, fully
evaluated. -/
theorem send_message_rotation_eq (s : MessagingState) (buffer : Buffer)
    (os_name : Option String) (msg : Message) (h : 2 ≤ s.buffer_size)
    (hfull : ¬buffer.queue.length < buffer.cap) :
    s.send_message (some buffer) os_name msg =
      .ok ((s.handle_full_queue buffer).1,
           some { thread_id := buffer.thread_id, cap := s.buffer_size,
                  queue := [msg] }) := by
  have hpush : buffer.push msg = Option.none := by
    unfold Buffer.push
    rw [if_neg hfull]
  have hpos : 0 < s.buffer_size := by omega
  unfold MessagingState.send_message MessagingState.handle_full_queue
    MessagingState.alloc_empty_buffer Buffer.push
  simp [hpos]
  rw [if_neg hfull]

/-- Claim C6: on a thread's first send, `send_message` assigns the fresh
thread id `max_thread_id` (the fetch_add returns the old counter value and
bumps it), registers the id, and installs a buffer whose first message is
the synthetic `NewThread(thread_id, display_name)` — with the display name
computed by `display_name_of`, i.e. `"{name} {thread_id}"` when the OS
thread has a name and `"thread {thread_id}"` otherwise — followed by the
caller's message.  Rotation of a full buffer never re-pushes `NewThread`:
the replacement buffer holds exactly the caller's message. -/
theorem first_send_spec (s : MessagingState) (os_name : Option String)
    (msg : Message) (h : 2 ≤ s.buffer_size) :
    (s.send_message Option.none os_name msg =
      .ok ({ s with
              max_thread_id := s.max_thread_id + 1,
              in_use_local_buffers := s.max_thread_id :: s.in_use_local_buffers },
           some { thread_id := s.max_thread_id, cap := s.buffer_size,
                  queue := [Message.newThread s.max_thread_id
                              (display_name_of os_name s.max_thread_id), msg] }))
  ∧ (∀ buffer : Buffer, buffer.queue.length = buffer.cap →
      ∃ s2 b2, s.send_message (some buffer) os_name msg = .ok (s2, some b2) ∧
        b2.queue = [msg] ∧ b2.thread_id = buffer.thread_id) := by
  constructor
  · exact send_message_first_eq s os_name msg h
  · intro buffer hfull
    exact ⟨(s.handle_full_queue buffer).1,
      { thread_id := buffer.thread_id, cap := s.buffer_size, queue := [msg] },
      send_message_rotation_eq s buffer os_name msg h (by omega), rfl, rfl⟩

theorem first_send_spec_witness :
    2 ≤ (MessagingState.mk 4096 0 [] []).buffer_size
  ∧ ((MessagingState.mk 4096 0 [] []).send_message Option.none Option.none
      (Message.enter 10 ("a") Option.none)).isOk = true :=
  ⟨by decide,
   by rw [(first_send_spec (MessagingState.mk 4096 0 [] []) Option.none
        (Message.enter 10 ("a") Option.none) (by decide)).1]; rfl⟩

/-- Claim C7: with buffer capacity at least 2, the two
`panic!("Failed to push into fresh buffer")` branches of `send_message`
are unreachable: for every cell state and message the call returns
normally — a freshly allocated replacement buffer always accepts the one
rotated message, and a thread's first buffer accepts both the synthetic
`NewThread` message and the caller's message. -/
theorem send_message_no_panic (s : MessagingState) (cell : Option Buffer)
    (os_name : Option String) (msg : Message) (h : 2 ≤ s.buffer_size) :
    ∃ r, s.send_message cell os_name msg = .ok r := by
  cases cell with
  | none =>
    exact ⟨_, send_message_first_eq s os_name msg h⟩
  | some buffer =>
    cases hp : buffer.push msg with
    | some b =>
      refine ⟨(s, some b), ?_⟩
      unfold MessagingState.send_message
      simp [hp]
    | none =>
      have hfull : ¬buffer.queue.length < buffer.cap := by
        intro hl
        unfold Buffer.push at hp
        rw [if_pos hl] at hp
        exact Option.noConfusion hp
      exact ⟨_, send_message_rotation_eq s buffer os_name msg h hfull⟩

theorem send_message_no_panic_witness :
    2 ≤ (MessagingState.mk 2 0 [] []).buffer_size
  ∧ ∃ r, (MessagingState.mk 2 0 [] []).send_message Option.none Option.none
      (Message.enter 10 ("a") Option.none) = .ok r :=
  ⟨by decide,
   send_message_no_panic (MessagingState.mk 2 0 [] []) Option.none Option.none
     (Message.enter 10 ("a") Option.none) (by decide)⟩

end TracingPerfetto
